import Mathlib

/-!
Shallow embedding of `src/helper/wrapper/PlaywrightWrappers.ts`
(class `PlaywrightWrapper`), a facade over a browser page handle, plus
its pure data utilities (random strings, date/time/currency formatting).

Browser-side state (the page, its elements, the platform date parser,
`Math.random`) is modelled as explicit parameters; the facade methods are
transcribed from the TypeScript source.
-/

namespace PW

/-! ## Page model

A page resolves a locator string to a list of matching elements; each
element carries a visibility flag.  `textContent` in Playwright returns
`string | null`, modelled as `Option String`. -/

structure Element where
  visible : Bool
  deriving DecidableEq

structure Page where
  elements : String → List Element
  textContent : String → Option String

/-- Playwright `locator.isVisible()`: `false` when the locator matches no
element, otherwise the first match's visibility; it never throws. -/
def locatorIsVisible (p : Page) (locator : String) : Bool :=
  match p.elements locator with
  | [] => false
  | e :: _ => e.visible

/-- `isElementAvailable(locator)`: `return await element.isVisible()`. -/
def isElementAvailable (p : Page) (locator : String) : Bool :=
  locatorIsVisible p locator

/-- `getText(locator)`: `return await element.textContent()`. -/
def getText (p : Page) (locator : String) : Option String :=
  p.textContent locator

/-- `compareText(locator1, locator2)`: reads both texts and compares with
`===` (exact equality, no normalization). -/
def compareText (p : Page) (locator1 locator2 : String) : Bool :=
  let text1 := getText p locator1
  let text2 := getText p locator2
  decide (text1 = text2)

/-! ## Pointer actions, as traces of primitive page-handle calls -/

inductive PageAction where
  | locate (selector : String)
  | hoverElement (selector : String)
  deriving DecidableEq

/-- `hover(locator)`: `page.locator(locator)` then `element.hover()`. -/
def hover (locator : String) : List PageAction :=
  [PageAction.locate locator, PageAction.hoverElement locator]

/-- `moveToElement(locator)`: `page.locator(locator)` then `element.hover()`. -/
def moveToElement (locator : String) : List PageAction :=
  [PageAction.locate locator, PageAction.hoverElement locator]

/-! ## `getTextAndAcceptAlert`

The method initializes `alertText = ''`, registers a `dialog` listener
that would overwrite `alertText` and accept the dialog, and returns
`alertText` at once.  Dialog events fire only after the method has
returned; `fireDialog` models the listener running on a later event. -/

structure AlertCapture where
  alertText : String
  handlerRegistered : Bool
  deriving DecidableEq

/-- `getTextAndAcceptAlert()`: returns the current value of `alertText`
(just initialized to `''`) together with the post-call listener state. -/
def getTextAndAcceptAlert : String × AlertCapture :=
  let alertText := ""
  let st : AlertCapture := { alertText := alertText, handlerRegistered := true }
  (st.alertText, st)

/-- A `dialog` event with message `message` delivered to the page: the
registered listener stores the message and accepts the dialog. -/
def fireDialog (st : AlertCapture) (message : String) : AlertCapture :=
  if st.handlerRegistered then { st with alertText := message } else st

/-- One full run: call `getTextAndAcceptAlert`, then let any number of
dialogs fire; the first component is the value the caller received. -/
def runGetTextAndAcceptAlert (dialogs : List String) : String × AlertCapture :=
  let call := getTextAndAcceptAlert
  (call.1, dialogs.foldl fireDialog call.2)

/-! ## `generateRandomValue`

`Math.random()` draws are passed explicitly as a stream `rng : Nat → ℚ`
of values (the JS contract is `0 ≤ r < 1`); the i-th loop iteration uses
`rng i`. -/

/-- JS `s.charAt(i)`: the one-character string at index `i`, or `""` when
`i` is out of range. -/
def charAt (s : String) (i : Int) : String :=
  if 0 ≤ i then
    match s.data.get? i.toNat with
    | some c => String.singleton c
    | none => ""
  else ""

/-- Inner helper `getRandomChar`:
`characters.charAt(Math.floor(Math.random() * characters.length))`,
with the `Math.random()` draw `r` passed explicitly. -/
def getRandomChar (characters : String) (r : ℚ) : String :=
  let randomIndex : Int := ⌊r * (characters.length : ℚ)⌋
  charAt characters randomIndex

def numericChars : String := "0123456789"

def alphanumericChars : String :=
  "ABCDEFGHIJKLMNOPQRSTUVWXYZabcdefghijklmnopqrstuvwxyz0123456789"

def specialChars : String := "!@#$%^&*()_-+=<>?"

/-- The loop `for (i = 0; i < length; i++) randomValue += getRandomChar(characters)`. -/
def buildRandomValue (rng : Nat → ℚ) (characters : String) (length : Nat) : String :=
  (List.range length).foldl (fun acc i => acc ++ getRandomChar characters (rng i)) ""

/-- `generateRandomValue(length, type)`: picks the character set by `type`
(empty set for an unrecognized `type`) and accumulates `length` random
characters. -/
def generateRandomValue (rng : Nat → ℚ) (length : Nat) (type : String) : String :=
  let characters :=
    if type = "numeric" then numericChars
    else if type = "alphanumeric" then alphanumericChars
    else if type = "characters" then specialChars
    else ""
  buildRandomValue rng characters length

/-! ## Decimal rendering helpers

`natToString` renders a natural number in decimal (the embedding of the
digit sequences produced by `Intl` numeric formatting and JS number
printing); `natDigitsGo` is fuel-based structural recursion so that it
reduces in the kernel. -/

def natDigitsGo : Nat → Nat → List Char → List Char
  | 0, _, acc => acc
  | fuel + 1, n, acc =>
    if n = 0 then acc else natDigitsGo fuel (n / 10) (Nat.digitChar (n % 10) :: acc)

def natToString (n : Nat) : String :=
  if n = 0 then "0" else String.mk (natDigitsGo n n [])

/-- `Intl` `'2-digit'` rendering for values below 100. -/
def pad2 (n : Nat) : String :=
  if n < 10 then "0" ++ natToString n else natToString n

/-! ## Dates and times

A JS `Date` value, as far as the formatting code observes it. -/

structure JsDate where
  year : Nat
  month : Nat
  day : Nat
  hour : Nat
  minute : Nat
  second : Nat
  deriving DecidableEq

def monthShortName : Nat → String
  | 1 => "Jan" | 2 => "Feb" | 3 => "Mar" | 4 => "Apr"
  | 5 => "May" | 6 => "Jun" | 7 => "Jul" | 8 => "Aug"
  | 9 => "Sep" | 10 => "Oct" | 11 => "Nov" | 12 => "Dec"
  | _ => ""

/-- `new Intl.DateTimeFormat('en-US', { dateStyle: 'medium' })`:
e.g. `"Oct 11, 2026"`. -/
def formatDateMedium (d : JsDate) : String :=
  monthShortName d.month ++ " " ++ natToString d.day ++ ", " ++ natToString d.year

/-- `new Intl.DateTimeFormat('en-US', { timeStyle: 'medium' })`:
12-hour clock, e.g. `"1:05:09 PM"`. -/
def formatTimeMedium (d : JsDate) : String :=
  let h12 := if d.hour % 12 = 0 then 12 else d.hour % 12
  natToString h12 ++ ":" ++ pad2 d.minute ++ ":" ++ pad2 d.second ++ " " ++
    (if d.hour < 12 then "AM" else "PM")

/-- `getCurrentDate(format)`: formats `new Date()` (passed explicitly as
`now`) with the fixed en-US medium date style; `format` is unused. -/
def getCurrentDate (now : JsDate) (format : String) : String :=
  formatDateMedium now

/-- `getCurrentTime(format)`: formats `new Date()` (passed explicitly as
`now`) with the fixed en-US medium time style; `format` is unused. -/
def getCurrentTime (now : JsDate) (format : String) : String :=
  formatTimeMedium now

/-! ## `changeDateFormat` -/

/-- en-US `{ year: 'numeric', month: '2-digit', day: '2-digit' }`:
`MM/DD/YYYY`. -/
def formatMMDDYYYY (d : JsDate) : String :=
  pad2 d.month ++ "/" ++ pad2 d.day ++ "/" ++ natToString d.year

/-- One attempted match of `/(\d{2})\/(\d{2})\/(\d{4})/` at the head of
the character list, rebuilding `'$2/$1/$3'` plus the untouched suffix on
success. -/
def matchSwapAt : List Char → Option (List Char)
  | a :: b :: '/' :: c :: d :: '/' :: e :: f :: g :: h :: rest =>
    if a.isDigit && b.isDigit && c.isDigit && d.isDigit &&
        e.isDigit && f.isDigit && g.isDigit && h.isDigit then
      some (c :: d :: '/' :: a :: b :: '/' :: e :: f :: g :: h :: rest)
    else
      none
  | _ => none

/-- `String.prototype.replace` with a non-global regex: rewrite the first
match, scanning left to right. -/
def regexSwapDayMonth : List Char → List Char
  | [] => []
  | x :: xs =>
    match matchSwapAt (x :: xs) with
    | some res => res
    | none => x :: regexSwapDayMonth xs

/-- `changeDateFormat(inputDate, inputFormat, outputFormat)`: parses
`inputDate` with the platform parser `jsParse` (the `new Date(inputDate)`
call; `inputFormat` is not consulted), renders `MM/DD/YYYY`, then swaps
day and month; `outputFormat` is not consulted either. -/
def changeDateFormat (jsParse : String → JsDate) (inputDate : String)
    (inputFormat : String) (outputFormat : String) : String :=
  let date := jsParse inputDate
  let formattedDate := formatMMDDYYYY date
  String.mk (regexSwapDayMonth formattedDate.data)

/-! ## `convertToMoneyFormat`

`parseFloat` per ECMAScript: trim leading whitespace, take the longest
prefix that is a signed decimal literal (or `Infinity`); no prefix means
`NaN`.  A finite parsed value is kept exactly as `mantissa * 10 ^
exponent` (binary64 rounding is not modelled; it does not affect NaN-ness
or any value used here). -/

inductive JsNum where
  | nan
  | inf (negative : Bool)
  | val (mantissa : Int) (exponent : Int)
  deriving DecidableEq

def isJsWhitespace (c : Char) : Bool :=
  c = ' ' || c = '\t' || c = '\n' || c = '\r'

/-- Longest leading run of decimal digits, and the remainder. -/
def takeDigits : List Char → List Char × List Char
  | [] => ([], [])
  | c :: rest =>
    if c.isDigit then
      let p := takeDigits rest
      (c :: p.1, p.2)
    else
      ([], c :: rest)

def digitsToNat (ds : List Char) : Nat :=
  ds.foldl (fun n c => 10 * n + (c.toNat - '0'.toNat)) 0

def parseFloat (s : String) : JsNum :=
  let cs0 := s.data.dropWhile isJsWhitespace
  let signed :=
    match cs0 with
    | '-' :: rest => (true, rest)
    | '+' :: rest => (false, rest)
    | _ => (false, cs0)
  let neg := signed.1
  let cs1 := signed.2
  if cs1.take 8 = "Infinity".data then JsNum.inf neg
  else
    let ip := takeDigits cs1
    let intDigits := ip.1
    let fp :=
      match ip.2 with
      | '.' :: rest => takeDigits rest
      | other => ([], other)
    let fracDigits := fp.1
    if intDigits = [] ∧ fracDigits = [] then JsNum.nan
    else
      let mantissa : Int := (digitsToNat (intDigits ++ fracDigits) : Int)
      let expPart : Int :=
        match fp.2 with
        | e :: rest =>
          if e = 'e' || e = 'E' then
            let er :=
              match rest with
              | '-' :: r => ((-1 : Int), r)
              | '+' :: r => ((1 : Int), r)
              | other => ((1 : Int), other)
            let ep := takeDigits er.2
            if ep.1 = [] then 0 else er.1 * (digitsToNat ep.1 : Int)
          else 0
        | [] => 0
      JsNum.val (if neg then -mantissa else mantissa)
        (expPart - (fracDigits.length : Int))

def digitsOf (n : Nat) : List Char :=
  if n = 0 then ['0'] else natDigitsGo n n []

/-- Split little-endian digits into groups of three. -/
def chunk3 : List Char → List (List Char)
  | [] => []
  | a :: b :: c :: rest => [a, b, c] :: chunk3 rest
  | xs => [xs]

/-- en-US thousands grouping of a big-endian digit list. -/
def groupThousands (digits : List Char) : List Char :=
  ((chunk3 digits.reverse).intersperse [',']).flatten.reverse

/-- The magnitude of `mantissa * 10 ^ exponent` in cents, rounded half
away from zero (the `Intl` default `halfExpand`):
`⌊magnitude * 100 + 1/2⌋` computed on integers. -/
def centsOf (mantissa exponent : Int) : Nat :=
  let a := mantissa.natAbs
  if 0 ≤ exponent + 2 then a * 10 ^ (exponent + 2).toNat
  else
    let p := 10 ^ (-(exponent + 2)).toNat
    (2 * a + p) / (2 * p)

/-- `toLocaleString('en-US', { style: 'currency', currency: 'USD' })` on
the exact value `mantissa * 10 ^ exponent`: sign, `$`, grouped dollars,
two cent digits. -/
def formatCurrency (mantissa exponent : Int) : String :=
  let negative := mantissa < 0
  let cents := centsOf mantissa exponent
  (if negative then "-$" else "$") ++
    String.mk (groupThousands (digitsOf (cents / 100))) ++ "." ++ pad2 (cents % 100)

def formatJsNum : JsNum → String
  | JsNum.nan => "$NaN"
  | JsNum.inf negative => (if negative then "-$" else "$") ++ "∞"
  | JsNum.val mantissa exponent => formatCurrency mantissa exponent

/-- `convertToMoneyFormat(amount)`: `parseFloat`, throw `'Invalid amount'`
on `NaN`, else `toLocaleString` en-US currency. -/
def convertToMoneyFormat (amount : String) : Except String String :=
  let parsedAmount := parseFloat amount
  if parsedAmount = JsNum.nan then Except.error "Invalid amount"
  else Except.ok (formatJsNum parsedAmount)

end PW

/-! ## Theorems -/

lemma PW.getRandomChar_mem (characters : String) (r : ℚ)
    (h0 : 0 ≤ r) (h1 : r < 1) (hne : characters.length ≠ 0) :
    ∃ c ∈ characters.data, PW.getRandomChar characters r = String.singleton c := by
  have hlenpos : 0 < characters.length := Nat.pos_of_ne_zero hne
  have hq : (0 : ℚ) < (characters.length : ℚ) := by exact_mod_cast hlenpos
  have hub : r * (characters.length : ℚ) < (characters.length : ℚ) := by
    calc r * (characters.length : ℚ)
        < 1 * (characters.length : ℚ) := mul_lt_mul_of_pos_right h1 hq
      _ = (characters.length : ℚ) := one_mul _
  have hlb : (0 : ℚ) ≤ r * (characters.length : ℚ) := mul_nonneg h0 hq.le
  set i : Int := ⌊r * (characters.length : ℚ)⌋ with hi
  have hige : 0 ≤ i := Int.floor_nonneg.mpr hlb
  have hilt : i < (characters.length : Int) := by
    rw [hi]
    exact Int.floor_lt.mpr (by exact_mod_cast hub)
  have hnat : i.toNat < characters.data.length := by
    have : characters.data.length = characters.length := rfl
    omega
  obtain ⟨c, hc⟩ : ∃ c, characters.data.get? i.toNat = some c := by
    rw [List.get?_eq_get hnat]
    exact ⟨_, rfl⟩
  refine ⟨c, List.get?_mem hc, ?_⟩
  unfold PW.getRandomChar PW.charAt
  rw [← hi, if_pos hige, hc]

lemma PW.buildRandomValue_spec (rng : Nat → ℚ) (characters : String)
    (h : ∀ i, 0 ≤ rng i ∧ rng i < 1) (hne : characters.length ≠ 0) (n : Nat) :
    (PW.buildRandomValue rng characters n).length = n ∧
      ∀ c ∈ (PW.buildRandomValue rng characters n).data, c ∈ characters.data := by
  induction n with
  | zero => simp [PW.buildRandomValue]
  | succ k ih =>
    have step : PW.buildRandomValue rng characters (k + 1)
        = PW.buildRandomValue rng characters k ++ PW.getRandomChar characters (rng k) := by
      simp [PW.buildRandomValue, List.range_succ]
    obtain ⟨c, hcmem, hceq⟩ :=
      PW.getRandomChar_mem characters (rng k) (h k).1 (h k).2 hne
    constructor
    · rw [step, String.length_append, hceq, ih.1]
      rfl
    · intro x hx
      rw [step, hceq] at hx
      have hx' : x ∈ (PW.buildRandomValue rng characters k).data ++ [c] := hx
      rcases List.mem_append.mp hx' with hl | hr
      · exact ih.2 x hl
      · rcases List.mem_singleton.mp hr with rfl
        exact hcmem

/-- Claim C2: for every `n` and every valid random stream,
`generateRandomValue n "numeric"` has length `n` over the digits 0-9, and
likewise for `"alphanumeric"` and `"characters"` over their sets. -/
theorem generateRandomValue_length_charset (rng : Nat → ℚ)
    (h : ∀ i, 0 ≤ rng i ∧ rng i < 1) (n : Nat) :
    ((PW.generateRandomValue rng n "numeric").length = n ∧
      ∀ c ∈ (PW.generateRandomValue rng n "numeric").data, c ∈ PW.numericChars.data) ∧
    ((PW.generateRandomValue rng n "alphanumeric").length = n ∧
      ∀ c ∈ (PW.generateRandomValue rng n "alphanumeric").data,
        c ∈ PW.alphanumericChars.data) ∧
    ((PW.generateRandomValue rng n "characters").length = n ∧
      ∀ c ∈ (PW.generateRandomValue rng n "characters").data,
        c ∈ PW.specialChars.data) := by
  refine ⟨?_, ?_, ?_⟩ <;>
    simpa [PW.generateRandomValue] using
      PW.buildRandomValue_spec rng _ h (by decide) n

/-- Witness for C2: the constant stream `0` satisfies the range
hypothesis and a 3-character numeric value has length 3. -/
theorem generateRandomValue_length_charset_witness :
    (0 : ℚ) ≤ 0 ∧ (0 : ℚ) < 1 ∧
      (PW.generateRandomValue (fun _ => 0) 3 "numeric").length = 3 := by
  have h : ∀ i : Nat, (0 : ℚ) ≤ 0 ∧ (0 : ℚ) < 1 :=
    fun _ => ⟨by decide, by decide⟩
  exact ⟨by decide, by decide,
    (generateRandomValue_length_charset (fun _ => 0) h 3).1.1⟩

/-- Claim C3: an unrecognized `type` yields the empty character set, and
the accumulated value is the empty string, with no error raised (the
embedding is a total function). -/
theorem generateRandomValue_unknown_type_empty (type : String)
    (h1 : type ≠ "numeric") (h2 : type ≠ "alphanumeric") (h3 : type ≠ "characters")
    (rng : Nat → ℚ) (n : Nat) :
    PW.generateRandomValue rng n type = "" := by
  have hchar : ∀ r : ℚ, PW.getRandomChar "" r = "" := by
    intro r
    have : ((("" : String).length : ℚ)) = 0 := by rfl
    simp [PW.getRandomChar, PW.charAt, this]
  have hempty : ∀ m, PW.buildRandomValue rng "" m = "" := by
    intro m
    induction m with
    | zero => rfl
    | succ k ih =>
      simp [PW.buildRandomValue, List.range_succ] at ih ⊢
      rw [ih, hchar]
      rfl
  simp [PW.generateRandomValue, h1, h2, h3, hempty]

/-- Witness for C3 at the unrecognized type `"date"`. -/
theorem generateRandomValue_unknown_type_empty_witness :
    PW.generateRandomValue (fun _ => 0) 2 "date" = "" :=
  generateRandomValue_unknown_type_empty "date" (by decide) (by decide) (by decide)
    (fun _ => 0) 2

/-- Claim C9: `hover` and `moveToElement` are extensionally equal — both
resolve the locator and perform the same pointer-hover action. -/
theorem hover_eq_moveToElement : ∀ locator : String,
    PW.hover locator = PW.moveToElement locator :=
  fun _ => rfl

/-- Claim C10: for a locator matching zero elements, `isElementAvailable`
returns `false`; being a total `Bool`-valued function it raises nothing. -/
theorem isElementAvailable_no_match_false (p : PW.Page) (locator : String)
    (h : p.elements locator = []) : PW.isElementAvailable p locator = false := by
  unfold PW.isElementAvailable PW.locatorIsVisible
  rw [h]

/-- Witness for C10 at a concrete empty page. -/
theorem isElementAvailable_no_match_false_witness :
    PW.isElementAvailable ⟨fun _ => [], fun _ => none⟩ "#missing" = false :=
  isElementAvailable_no_match_false ⟨fun _ => [], fun _ => none⟩ "#missing" rfl

/-- Claim C8: `compareText` returns `true` iff the two `getText` results
are exactly equal, and in particular returns `false` whenever one text is
empty and the other is not. -/
theorem compareText_iff_getText_eq :
    (∀ (p : PW.Page) (l1 l2 : String),
      PW.compareText p l1 l2 = true ↔ PW.getText p l1 = PW.getText p l2) ∧
    (∀ (p : PW.Page) (l1 l2 : String) (t : String),
      PW.getText p l1 = some "" → PW.getText p l2 = some t → t ≠ "" →
      PW.compareText p l1 l2 = false) := by
  constructor
  · intro p l1 l2
    simp [PW.compareText]
  · intro p l1 l2 t h1 h2 ht
    simp only [PW.compareText, h1, h2, decide_eq_false_iff_not]
    intro hcontra
    exact ht (Option.some.inj hcontra).symm

/-- Witness for C8: one empty text, one non-empty text, result `false`. -/
theorem compareText_iff_getText_eq_witness :
    PW.compareText ⟨fun _ => [], fun l => if l = "a" then some "" else some "x"⟩
      "a" "b" = false :=
  compareText_iff_getText_eq.2
    ⟨fun _ => [], fun l => if l = "a" then some "" else some "x"⟩
    "a" "b" "x" (by decide) (by decide) (by decide)

/-- Claim C1: `getTextAndAcceptAlert` (spec name `captureAndAcceptAlert`)
always returns the empty string: it registers the dialog listener and
returns the initial `alertText` before any dialog event can fire,
whatever dialogs appear afterwards. -/
theorem getTextAndAcceptAlert_returns_empty : ∀ dialogs : List String,
    (PW.runGetTextAndAcceptAlert dialogs).1 = "" ∧
    PW.getTextAndAcceptAlert.2.handlerRegistered = true :=
  fun _ => ⟨rfl, rfl⟩

/-- Claim C4: `convertToMoneyFormat "1000"` is `"$1,000.00"`,
`convertToMoneyFormat "abc"` raises `'Invalid amount'`; in general a
failed `parseFloat` raises and a parsed value is rendered as en-US
currency. -/
theorem convertToMoneyFormat_spec :
    PW.convertToMoneyFormat "1000" = Except.ok "$1,000.00" ∧
    PW.convertToMoneyFormat "abc" = Except.error "Invalid amount" ∧
    (∀ s : String, PW.parseFloat s = PW.JsNum.nan →
      PW.convertToMoneyFormat s = Except.error "Invalid amount") ∧
    (∀ (s : String) (m e : Int), PW.parseFloat s = PW.JsNum.val m e →
      PW.convertToMoneyFormat s = Except.ok (PW.formatCurrency m e)) := by
  refine ⟨rfl, rfl, ?_, ?_⟩
  · intro s h
    simp [PW.convertToMoneyFormat, h]
  · intro s m e h
    simp [PW.convertToMoneyFormat, h, PW.formatJsNum]

/-- Witness for C4: a failing parse raises and a successful parse is
rendered as currency. -/
theorem convertToMoneyFormat_spec_witness :
    PW.convertToMoneyFormat "xyz" = Except.error "Invalid amount" ∧
    PW.convertToMoneyFormat "5" = Except.ok (PW.formatCurrency 5 0) :=
  ⟨convertToMoneyFormat_spec.2.2.1 "xyz" (by decide),
   convertToMoneyFormat_spec.2.2.2 "5" 5 0 (by decide)⟩

/-- Claim C5: `convertToMoneyFormat` raises exactly when `parseFloat`
yields `NaN`; a parseable numeric prefix with trailing junk, such as
`"12abc"`, succeeds with the formatting of the prefix. -/
theorem convertToMoneyFormat_error_iff_nan :
    PW.convertToMoneyFormat "12abc" = Except.ok "$12.00" ∧
    ∀ s : String,
      PW.convertToMoneyFormat s = Except.error "Invalid amount" ↔
        PW.parseFloat s = PW.JsNum.nan := by
  refine ⟨rfl, fun s => ⟨fun h => ?_, fun h => by simp [PW.convertToMoneyFormat, h]⟩⟩
  by_contra hne
  simp [PW.convertToMoneyFormat, hne] at h

/-- Claim C6: `getCurrentDate` and `getCurrentTime` ignore their
`format` argument; for a fixed instant the output is the fixed en-US
medium-style rendering, whatever format string is passed. -/
theorem getCurrent_ignores_format :
    ∀ (now : PW.JsDate) (f1 f2 : String),
      PW.getCurrentDate now f1 = PW.getCurrentDate now f2 ∧
      PW.getCurrentTime now f1 = PW.getCurrentTime now f2 ∧
      PW.getCurrentDate now f1 = PW.formatDateMedium now ∧
      PW.getCurrentTime now f1 = PW.formatTimeMedium now :=
  fun _ _ _ => ⟨rfl, rfl, rfl, rfl⟩

/-! Digit-structure lemmas for the decimal renderer. -/

lemma PW.natDigitsGo_eq_digits : ∀ (fuel n : Nat) (acc : List Char), n ≤ fuel →
    PW.natDigitsGo fuel n acc = (Nat.digits 10 n).reverse.map Nat.digitChar ++ acc := by
  intro fuel
  induction fuel with
  | zero =>
    intro n acc h
    have : n = 0 := by omega
    subst this
    simp [PW.natDigitsGo]
  | succ f ih =>
    intro n acc h
    by_cases hn : n = 0
    · subst hn
      simp [PW.natDigitsGo]
    · have hstep : PW.natDigitsGo (f + 1) n acc
          = PW.natDigitsGo f (n / 10) (Nat.digitChar (n % 10) :: acc) := by
        simp only [PW.natDigitsGo, if_neg hn]
      rw [hstep, ih (n / 10) _ (by
        have : n / 10 < n := Nat.div_lt_self (Nat.pos_of_ne_zero hn) (by norm_num)
        omega)]
      rw [Nat.digits_def' (by norm_num : (1 : Nat) < 10) (Nat.pos_of_ne_zero hn)]
      simp

lemma PW.natToString_eq_digits (n : Nat) (hn : n ≠ 0) :
    PW.natToString n = String.mk ((Nat.digits 10 n).reverse.map Nat.digitChar) := by
  unfold PW.natToString
  rw [if_neg hn, PW.natDigitsGo_eq_digits n n [] le_rfl, List.append_nil]

lemma PW.digitChar_isDigit (d : Nat) (h : d < 10) : (Nat.digitChar d).isDigit = true := by
  interval_cases d <;> decide

lemma PW.natToString_all_digits (n : Nat) :
    ∀ c ∈ (PW.natToString n).data, c.isDigit = true := by
  by_cases hn : n = 0
  · subst hn
    intro c hc
    have : c = '0' := by simpa [PW.natToString] using hc
    subst this
    decide
  · rw [PW.natToString_eq_digits n hn]
    intro c hc
    obtain ⟨d, hd, rfl⟩ := List.mem_map.mp hc
    exact PW.digitChar_isDigit d
      (Nat.digits_lt_base (by norm_num) (List.mem_reverse.mp hd))

lemma PW.list_len_four {α : Type} : ∀ (l : List α), l.length = 4 →
    ∃ a b c d : α, l = [a, b, c, d]
  | [], h => by simp at h
  | [_], h => by simp at h
  | [_, _], h => by simp at h
  | [_, _, _], h => by simp at h
  | [a, b, c, d], _ => ⟨a, b, c, d, rfl⟩
  | _ :: _ :: _ :: _ :: _ :: _, h => by simp at h

lemma PW.natToString_four (y : Nat) (h1 : 1000 ≤ y) (h2 : y < 10000) :
    ∃ a b c d : Char, PW.natToString y = String.mk [a, b, c, d] ∧
      a.isDigit = true ∧ b.isDigit = true ∧ c.isDigit = true ∧ d.isDigit = true := by
  have hlen : (Nat.digits 10 y).length = 4 := by
    rw [Nat.digits_len 10 y (by norm_num) (by omega)]
    have p3 : (10 : Nat) ^ 3 = 1000 := by norm_num
    have p4 : (10 : Nat) ^ (3 + 1) = 10000 := by norm_num
    have : Nat.log 10 y = 3 :=
      Nat.log_eq_of_pow_le_of_lt_pow (by omega) (by omega)
    omega
  obtain ⟨a, b, c, d, hl⟩ :=
    PW.list_len_four ((Nat.digits 10 y).reverse.map Nat.digitChar) (by simp [hlen])
  have heq := PW.natToString_eq_digits y (by omega)
  rw [hl] at heq
  have hdig := PW.natToString_all_digits y
  rw [heq] at hdig
  exact ⟨a, b, c, d, heq,
    hdig a (by simp), hdig b (by simp), hdig c (by simp), hdig d (by simp)⟩

lemma PW.pad2_two_digits (n : Nat) (h : n < 100) :
    ∃ a b : Char, PW.pad2 n = String.mk [a, b] ∧
      a.isDigit = true ∧ b.isDigit = true := by
  by_cases h10 : n < 10
  · obtain ⟨c, hc, hcd⟩ : ∃ c : Char, PW.natToString n = String.mk [c] ∧
        c.isDigit = true := by
      by_cases h0 : n = 0
      · subst h0
        exact ⟨'0', rfl, by decide⟩
      · refine ⟨Nat.digitChar n, ?_, PW.digitChar_isDigit n h10⟩
        rw [PW.natToString_eq_digits n h0, Nat.digits_of_lt 10 n h0 (by omega)]
        rfl
    refine ⟨'0', c, ?_, by decide, hcd⟩
    unfold PW.pad2
    rw [if_pos h10, hc]
    rfl
  · have hlen : (Nat.digits 10 n).length = 2 := by
      rw [Nat.digits_len 10 n (by norm_num) (by omega)]
      have p1 : (10 : Nat) ^ 1 = 10 := by norm_num
      have p2 : (10 : Nat) ^ (1 + 1) = 100 := by norm_num
      have : Nat.log 10 n = 1 :=
        Nat.log_eq_of_pow_le_of_lt_pow (by omega) (by omega)
      omega
    obtain ⟨a, b, hl⟩ : ∃ a b : Char,
        (Nat.digits 10 n).reverse.map Nat.digitChar = [a, b] := by
      have hlen2 : ((Nat.digits 10 n).reverse.map Nat.digitChar).length = 2 := by
        simp [hlen]
      match hx : (Nat.digits 10 n).reverse.map Nat.digitChar, hlen2 with
      | [a, b], _ => exact ⟨a, b, rfl⟩
      | [], h2 => simp at h2
      | [_], h2 => simp at h2
      | _ :: _ :: _ :: _, h2 => simp at h2
    have heq := PW.natToString_eq_digits n (by omega)
    rw [hl] at heq
    have hdig := PW.natToString_all_digits n
    rw [heq] at hdig
    refine ⟨a, b, ?_, hdig a (by simp), hdig b (by simp)⟩
    unfold PW.pad2
    rw [if_neg h10, heq]

/-- Claim C7: `changeDateFormat` parses `inputDate` with the platform
parser (ignoring `inputFormat`), renders `MM/DD/YYYY`, and swaps the
first two components to `DD/MM/YYYY`; `outputFormat` has no effect. -/
theorem changeDateFormat_spec (jsParse : String → PW.JsDate)
    (inputDate if1 if2 of1 of2 : String)
    (hm : (jsParse inputDate).month < 100) (hd : (jsParse inputDate).day < 100)
    (hy1 : 1000 ≤ (jsParse inputDate).year) (hy2 : (jsParse inputDate).year < 10000) :
    PW.changeDateFormat jsParse inputDate if1 of1
        = PW.changeDateFormat jsParse inputDate if2 of2 ∧
    PW.changeDateFormat jsParse inputDate if1 of1
        = PW.pad2 (jsParse inputDate).day ++ "/" ++ PW.pad2 (jsParse inputDate).month
            ++ "/" ++ PW.natToString (jsParse inputDate).year := by
  refine ⟨rfl, ?_⟩
  obtain ⟨m1, m2, hmeq, hm1, hm2⟩ := PW.pad2_two_digits _ hm
  obtain ⟨d1, d2, hdeq, hd1v, hd2v⟩ := PW.pad2_two_digits _ hd
  obtain ⟨y1, y2, y3, y4, hyeq, hy1v, hy2v, hy3v, hy4v⟩ :=
    PW.natToString_four _ hy1 hy2
  unfold PW.changeDateFormat PW.formatMMDDYYYY
  dsimp only
  rw [hmeq, hdeq, hyeq]
  show String.mk (PW.regexSwapDayMonth
      [m1, m2, '/', d1, d2, '/', y1, y2, y3, y4])
    = String.mk [d1, d2, '/', m1, m2, '/', y1, y2, y3, y4]
  rw [PW.regexSwapDayMonth, PW.matchSwapAt]
  simp [hm1, hm2, hd1v, hd2v, hy1v, hy2v, hy3v, hy4v]

/-- Witness for C7 at a concrete platform parse of `2026-10-11`. -/
theorem changeDateFormat_spec_witness :
    PW.changeDateFormat (fun _ => ⟨2026, 10, 11, 0, 0, 0⟩) "2026-10-11"
      "YYYY-MM-DD" "DD-MM-YYYY" = "11/10/2026" := by
  have h := (changeDateFormat_spec (fun _ => ⟨2026, 10, 11, 0, 0, 0⟩) "2026-10-11"
    "YYYY-MM-DD" "MM-DD-YYYY" "DD-MM-YYYY" "YYYY/MM/DD"
    (by decide) (by decide) (by decide) (by decide)).2
  rw [h]
  rfl
